import Mathlib

/-!
Verification development for the prompt-weave repository.

The repository ships a TypeScript shell (`src/extension.ts`,
`src/pythonRunner.ts`) around a Python assembly core, together with the
built-in snippet data files under `snippets/`.  The TypeScript shell is
embedded here directly; the Python core (front-matter parsing and the
merge engine) is not part of the repository sources, so those parts are
modelled from the specification and marked as such in their doc comments.

Strings are modelled as Lean `String`s; line manipulation is carried out
on the underlying character lists, splitting at the newline character.
-/

set_option maxRecDepth 100000

namespace PromptWeave

/-- Split a character sequence into lines at newline characters.  The
result always has exactly one entry more than the number of newline
characters, so it is never empty. -/
def splitNl : List Char → List (List Char)
  | [] => [[]]
  | c :: rest =>
    if c = '\n' then [] :: splitNl rest
    else
      match splitNl rest with
      | [] => [[c]]
      | l :: ls => (c :: l) :: ls

/-- Join lines back together with a newline character between adjacent
lines (no trailing newline added). -/
def unsplitNl : List (List Char) → List Char
  | [] => []
  | [l] => l
  | l :: ls => l ++ '\n' :: unsplitNl ls

theorem splitNl_ne_nil (l : List Char) : splitNl l ≠ [] := by
  induction l with
  | nil => simp [splitNl]
  | cons c rest ih =>
    simp only [splitNl]
    split
    · simp
    · split
      · simp
      · simp

theorem splitNl_append (x y : List Char) :
    splitNl (x ++ '\n' :: y) = splitNl x ++ splitNl y := by
  induction x with
  | nil => simp [splitNl]
  | cons c rest ih =>
    by_cases hc : c = '\n'
    · subst hc
      simp [splitNl, ih]
    · cases h : splitNl rest with
      | nil => exact absurd h (splitNl_ne_nil rest)
      | cons l ls => simp [splitNl, hc, ih, h]

theorem unsplitNl_splitNl (l : List Char) : unsplitNl (splitNl l) = l := by
  induction l with
  | nil => rfl
  | cons c rest ih =>
    by_cases hc : c = '\n'
    · subst hc
      simp only [splitNl, if_pos rfl]
      cases h : splitNl rest with
      | nil => exact absurd h (splitNl_ne_nil rest)
      | cons a as =>
        rw [h] at ih
        simp [unsplitNl, ih]
    · simp only [splitNl, hc, if_false]
      cases h : splitNl rest with
      | nil => exact absurd h (splitNl_ne_nil rest)
      | cons a as =>
        rw [h] at ih
        cases as with
        | nil => simp_all [unsplitNl]
        | cons b bs => simp_all [unsplitNl]

theorem data_append (s t : String) : (s ++ t).data = s.data ++ t.data := by
  cases s
  cases t
  rfl

theorem mk_data (s : String) : String.mk s.data = s := by
  cases s
  rfl

/-- The magic separator line dividing generated content from the
user-owned trailer (from the repository plan document). -/
def separatorLine : String :=
  "<!-- prompt-weave:generated - do not edit above this line -->"

/-- The separator line as a character list. -/
def sepChars : List Char := separatorLine.data

/-- The lines of a string (split at newline characters). -/
def strLines (s : String) : List String := (splitNl s.data).map String.mk

/-- Scan a list of lines for the first occurrence of the separator line
and return everything strictly after it. -/
def linesAfterSep : List (List Char) → Option (List (List Char))
  | [] => none
  | l :: rest => if l = sepChars then some rest else linesAfterSep rest

/-- Modelled from the spec: trailer extraction of the Merge Engine
(spec section 4.4); the Python core implementing it is absent from the
repository sources.  If the existing document is absent, or contains no
separator line, the trailer is empty; otherwise the document is split at
the first occurrence of the separator line and the trailer is everything
strictly after that line, verbatim. -/
def mergeTrailer : Option String → String
  | none => ""
  | some doc =>
    match linesAfterSep (splitNl doc.data) with
    | none => ""
    | some ls => String.mk (unsplitNl ls)

/-- Modelled from the spec: the Merge Engine (spec section 4.4); the
Python core implementing it is absent from the repository sources.  The
final document is the assembled text, a newline, the separator line, a
newline, then the preserved trailer (nothing after the trailing newline
when the trailer is empty). -/
def merge (assembledText : String) (existingDocument : Option String) : String :=
  assembledText ++ "\n" ++ separatorLine ++ "\n" ++ mergeTrailer existingDocument

theorem linesAfterSep_append (A B : List (List Char)) (h : sepChars ∉ A) :
    linesAfterSep (A ++ sepChars :: B) = some B := by
  induction A with
  | nil => simp [linesAfterSep]
  | cons a as ih =>
    have ha : a ≠ sepChars := by
      intro e
      exact h (e ▸ List.mem_cons_self a as)
    simp only [List.cons_append, linesAfterSep, if_neg ha]
    exact ih (fun hm => h (List.mem_cons_of_mem a hm))

theorem splitNl_sepChars : splitNl sepChars = [sepChars] := by decide

theorem mergeTrailer_compose (above tr : String)
    (h : sepChars ∉ splitNl above.data) :
    mergeTrailer (some (above ++ "\n" ++ separatorLine ++ "\n" ++ tr)) = tr := by
  have hdata :
      (above ++ "\n" ++ separatorLine ++ "\n" ++ tr).data
        = above.data ++ '\n' :: (sepChars ++ '\n' :: tr.data) := by
    simp [data_append, sepChars]
  have hsplit :
      splitNl (above ++ "\n" ++ separatorLine ++ "\n" ++ tr).data
        = splitNl above.data ++ sepChars :: splitNl tr.data := by
    rw [hdata, splitNl_append, splitNl_append, splitNl_sepChars]
    rfl
  simp only [mergeTrailer, hsplit, linesAfterSep_append _ _ h, unsplitNl_splitNl,
    mk_data]

theorem sepChars_not_in_splitNl (s : String) (h : separatorLine ∉ strLines s) :
    sepChars ∉ splitNl s.data := by
  intro hm
  apply h
  have : String.mk sepChars ∈ (splitNl s.data).map String.mk :=
    List.mem_map_of_mem String.mk hm
  simpa [strLines, sepChars, mk_data] using this

/-- C1 (amended): the merge operation is idempotent for every assembled
text that does not itself contain the separator line as one of its
lines: re-merging the engine's own prior output with unchanged assembled
text reproduces byte-identical output, for any prior document (in
particular for `merge t none`). -/
theorem C1_merge_idempotent (t : String) (prior : Option String)
    (h : separatorLine ∉ strLines t) :
    merge t (some (merge t prior)) = merge t prior := by
  show merge t (some (t ++ "\n" ++ separatorLine ++ "\n" ++ mergeTrailer prior))
    = merge t prior
  unfold merge
  rw [mergeTrailer_compose t (mergeTrailer prior) (sepChars_not_in_splitNl t h)]

/-- C1 witness: the amended idempotence theorem applied at the concrete
assembled text "BODY" with no prior document. -/
theorem C1_merge_idempotent_witness :
    separatorLine ∉ strLines "BODY" ∧
      merge "BODY" (some (merge "BODY" none)) = merge "BODY" none :=
  ⟨by decide, C1_merge_idempotent "BODY" none (by decide)⟩

/-- C1 counterexample: as literally stated ("for every assembled text"),
idempotence fails when the assembled text is itself the separator line:
the second merge finds the first separator occurrence inside the
assembled region and keeps everything after it as trailer. -/
theorem C1_counterexample :
    merge separatorLine (some (merge separatorLine none))
      ≠ merge separatorLine none := by decide

/-- The characters removed by JavaScript's String.prototype.trim: ASCII
whitespace, NBSP, BOM, the line and paragraph separators, and the
Unicode space separators. -/
def isJsWhitespace (c : Char) : Bool :=
  c = ' ' || c = '\t' || c = '\n' || c = '\r' || c = '\x0b' || c = '\x0c' ||
    c = '\u00A0' || c = '\u1680' || ('\u2000' ≤ c && c ≤ '\u200A') ||
    c = '\u2028' || c = '\u2029' || c = '\u202F' || c = '\u205F' ||
    c = '\u3000' || c = '\uFEFF'

/-- JavaScript's String.prototype.trim: remove leading and trailing
whitespace characters. -/
def jsTrim (s : String) : String :=
  String.mk (((s.data.dropWhile isJsWhitespace).reverse.dropWhile isJsWhitespace).reverse)

/-- Split a character sequence at every match of the regular expression
used by the runner, i.e. at each "\r\n" or lone "\n". -/
def splitCrNl : List Char → List (List Char)
  | [] => [[]]
  | '\n' :: rest => [] :: splitCrNl rest
  | '\r' :: '\n' :: rest => [] :: splitCrNl rest
  | c :: rest =>
    match splitCrNl rest with
    | [] => [[c]]
    | l :: ls => (c :: l) :: ls

/-- JavaScript's String.prototype.startsWith on the model strings. -/
def strStartsWith (s p : String) : Bool := p.data.isPrefixOf s.data

/-- JavaScript's String.prototype.slice from a character index to the
end of the string. -/
def strDrop (s : String) (n : Nat) : String := String.mk (s.data.drop n)

/-- JavaScript's Array.prototype.join with separator "\n". -/
def joinNl (ls : List String) : String := String.mk (unsplitNl (ls.map String.data))

/-- The prefix marking a recoverable warning line on the core's stdout
(src/pythonRunner.ts). -/
def warningMark : String := "Warning: "

/-- The resolved value of runPythonCore (interface PythonOutput in
src/pythonRunner.ts). -/
structure PythonOutput where
  output : String
  warnings : List String
deriving DecidableEq, Repr

/-- The non-empty lines of the spawned core's standard output, after the
close handler's trim and split (the local `lines` of
src/pythonRunner.ts). -/
def visibleLines (stdout : String) : List String :=
  ((splitCrNl (jsTrim stdout).data).map String.mk).filter (fun l => l.length > 0)

/-- The visible stdout lines classified as warnings: those starting with
"Warning: ". -/
def warningSourceLines (stdout : String) : List String :=
  (visibleLines stdout).filter (fun l => strStartsWith l warningMark)

/-- The visible stdout lines classified as informational output: those
not starting with "Warning: ". -/
def infoLines (stdout : String) : List String :=
  (visibleLines stdout).filter (fun l => !(strStartsWith l warningMark))

/-- The stdout parsing performed by runPythonCore's close handler on
exit code 0 (src/pythonRunner.ts): trim stdout, split at each "\r\n" or
"\n", drop empty lines; lines starting with "Warning: " become the
warnings with the prefix stripped; the remaining lines joined with
newlines and trimmed become the output. -/
def parseStdout (stdout : String) : PythonOutput :=
  let lines := visibleLines stdout
  let warnings := (lines.filter (fun l => strStartsWith l warningMark)).map
    (fun l => strDrop l warningMark.length)
  let output := jsTrim (joinNl (lines.filter (fun l => !(strStartsWith l warningMark))))
  { output := output, warnings := warnings }

/-- The observable behaviour of one spawned core process: either the
process closed with an exit code (null when killed by a signal) and the
accumulated stdout and stderr, or spawning failed with a system error
code and message. -/
inductive ProcEvent where
  | closed (code : Option Int) (stdout stderr : String)
  | spawnFailed (errCode : Option String) (errMessage : String)
deriving DecidableEq, Repr

/-- The settlement of the promise returned by runPythonCore. -/
inductive RunResult where
  | resolved (value : PythonOutput)
  | rejected (message : String)
deriving DecidableEq, Repr

/-- JavaScript rendering of `code ?? 'null'` in a template literal. -/
def codeText : Option Int → String
  | none => "null"
  | some n => toString n

/-- The dedicated error message when uv is not found on PATH
(src/pythonRunner.ts). -/
def uvNotFoundMsg : String :=
  "uv not found on PATH. Install it from https://docs.astral.sh/uv/ and make sure it is available in your shell."

/-- runPythonCore (src/pythonRunner.ts) as a function of the spawned
process's observable behaviour: exit code 0 resolves with the parsed
stdout; a non-zero (or null) exit code rejects with the trimmed stderr,
falling back to an exit-code description when stderr is empty; a spawn
failure rejects with the uv-not-found message on ENOENT and a
launch-failure message otherwise. -/
def runPythonCoreModel : ProcEvent → RunResult
  | .closed code stdout stderr =>
    if code = some 0 then .resolved (parseStdout stdout)
    else if jsTrim stderr = "" then
      .rejected ("Process exited with code " ++ codeText code)
    else .rejected (jsTrim stderr)
  | .spawnFailed errCode errMessage =>
    if errCode = some "ENOENT" then .rejected uvNotFoundMsg
    else .rejected ("Failed to launch uv: " ++ errMessage)

/-- Whether a process behaviour is a fatal condition: any close with an
exit code other than 0, or any spawn failure. -/
def isFatalEvent : ProcEvent → Bool
  | .closed code _ _ => code != some 0
  | .spawnFailed _ _ => true

/-- The specific rejection messages runPythonCore can produce for a
given process behaviour. -/
def rejectionForms : ProcEvent → List String
  | .closed code _ stderr =>
    [jsTrim stderr, "Process exited with code " ++ codeText code]
  | .spawnFailed _ errMessage =>
    [uvNotFoundMsg, "Failed to launch uv: " ++ errMessage]

/-- C3 (amended): every invocation whose process exits with code 0
resolves — it never rejects — with warnings equal to exactly the stdout
lines starting with "Warning: " (prefix stripped, stdout order
preserved) and output equal to the remaining non-empty lines joined with
newlines and then trimmed of surrounding whitespace; the presence of
warnings never causes rejection. -/
theorem C3_success_resolves (stdout stderr : String) :
    runPythonCoreModel (.closed (some 0) stdout stderr)
      = .resolved
          { output := jsTrim (joinNl (infoLines stdout)),
            warnings := (warningSourceLines stdout).map
              (fun l => strDrop l warningMark.length) } := rfl

/-- C3 counterexample: as literally stated ("output = the remaining
non-empty lines joined"), the claim fails when a kept line carries
leading whitespace that the final trim removes: on stdout
"Warning: x\n hello" the code returns output "hello", not the plain
join " hello". -/
theorem C3_counterexample :
    runPythonCoreModel (.closed (some 0) "Warning: x\n hello" "")
      ≠ RunResult.resolved
          { output := joinNl (infoLines "Warning: x\n hello"),
            warnings := ["x"] } := by decide

theorem linesAfterSep_first_split (L : List (List Char)) (h : sepChars ∈ L) :
    ∃ A B, L = A ++ sepChars :: B ∧ sepChars ∉ A ∧ linesAfterSep L = some B := by
  induction L with
  | nil => cases h
  | cons l rest ih =>
    by_cases hl : l = sepChars
    · subst hl
      exact ⟨[], rest, rfl, by simp, by simp [linesAfterSep]⟩
    · have hr : sepChars ∈ rest := by
        rcases List.mem_cons.mp h with h1 | h1
        · exact absurd h1.symm hl
        · exact h1
      rcases ih hr with ⟨A, B, hAB, hA, hres⟩
      refine ⟨l :: A, B, by simp [hAB], ?_, ?_⟩
      · intro hm
        rcases List.mem_cons.mp hm with h1 | h1
        · exact hl h1.symm
        · exact hA h1
      · simp only [linesAfterSep]
        rw [if_neg hl]
        exact hres

theorem mem_map_mk_sep (L : List (List Char))
    (h : separatorLine ∈ L.map String.mk) : sepChars ∈ L := by
  rcases List.mem_map.mp h with ⟨a, ha, hae⟩
  have h2 : a = sepChars := by
    have h3 := congrArg String.data hae
    simpa [sepChars] using h3
  exact h2 ▸ ha

/-- C2: for every prior document whose lines contain the separator line
and every new assembled text, merge preserves the trailer byte-for-byte:
the prior document's lines split (uniquely) at the first occurrence of
the separator line, and the new document is exactly the new assembled
text, a newline, the separator line, a newline, and the lines strictly
after that first occurrence, rejoined verbatim — regardless of how the
content above the separator changed. -/
theorem C2_merge_preserves_trailer (t doc : String)
    (h : separatorLine ∈ strLines doc) :
    ∃ A B, strLines doc = A ++ separatorLine :: B ∧ separatorLine ∉ A ∧
      merge t (some doc) = t ++ "\n" ++ separatorLine ++ "\n" ++ joinNl B := by
  have hc : sepChars ∈ splitNl doc.data := mem_map_mk_sep _ h
  rcases linesAfterSep_first_split (splitNl doc.data) hc with ⟨A0, B0, hAB, hA, hres⟩
  refine ⟨A0.map String.mk, B0.map String.mk, ?_, ?_, ?_⟩
  · simp [strLines, hAB, sepChars, mk_data]
  · intro hm
    rcases List.mem_map.mp hm with ⟨a, ha, hae⟩
    have h2 : a = sepChars := by
      have h3 := congrArg String.data hae
      simpa [sepChars] using h3
    exact hA (h2 ▸ ha)
  · show t ++ "\n" ++ separatorLine ++ "\n" ++ mergeTrailer (some doc)
      = t ++ "\n" ++ separatorLine ++ "\n" ++ joinNl (B0.map String.mk)
    have hmt : mergeTrailer (some doc) = String.mk (unsplitNl B0) := by
      simp [mergeTrailer, hres]
    have hdm : (B0.map String.mk).map String.data = B0 := by
      rw [List.map_map]
      exact List.map_id B0
    have hj : joinNl (B0.map String.mk) = String.mk (unsplitNl B0) := by
      rw [joinNl, hdm]
    rw [hmt, hj]

/-- C2 witness: the trailer-preservation theorem applied to a prior
document whose very first line is the separator line, with trailer
"user text" and new assembled text "NEW_BODY". -/
theorem C2_merge_preserves_trailer_witness :
    separatorLine ∈ strLines (separatorLine ++ "\n" ++ "user text") ∧
      ∃ A B, strLines (separatorLine ++ "\n" ++ "user text")
            = A ++ separatorLine :: B ∧ separatorLine ∉ A ∧
          merge "NEW_BODY" (some (separatorLine ++ "\n" ++ "user text"))
            = "NEW_BODY" ++ "\n" ++ separatorLine ++ "\n" ++ joinNl B :=
  ⟨by decide,
    C2_merge_preserves_trailer "NEW_BODY" (separatorLine ++ "\n" ++ "user text")
      (by decide)⟩

/-- C4: every fatal condition — the spawned process closing with an exit
code other than 0 (including a null code), or the process failing to
spawn at all — makes runPythonCore reject, never resolve, and the
rejection message is one of the specific actionable forms: the trimmed
stderr, an exit-code description, the dedicated uv-not-found message, or
the launch-failure message. -/
theorem C4_fatal_rejects (e : ProcEvent) (h : isFatalEvent e = true) :
    ∃ msg, runPythonCoreModel e = .rejected msg ∧ msg ∈ rejectionForms e := by
  cases e with
  | closed code stdout stderr =>
    have hc : ¬ code = some 0 := by simpa [isFatalEvent] using h
    simp only [runPythonCoreModel, if_neg hc]
    by_cases hs : jsTrim stderr = ""
    · rw [if_pos hs]
      exact ⟨_, rfl, by simp [rejectionForms]⟩
    · rw [if_neg hs]
      exact ⟨_, rfl, by simp [rejectionForms]⟩
  | spawnFailed errCode errMessage =>
    simp only [runPythonCoreModel]
    by_cases he : errCode = some "ENOENT"
    · rw [if_pos he]
      exact ⟨_, rfl, by simp [rejectionForms]⟩
    · rw [if_neg he]
      exact ⟨_, rfl, by simp [rejectionForms]⟩

/-- C4 witness: the fatality theorem applied to a concrete close event
with exit code 1 and stderr "boom". -/
theorem C4_fatal_rejects_witness :
    isFatalEvent (.closed (some 1) "" "boom") = true ∧
      ∃ msg,
        runPythonCoreModel (.closed (some 1) "" "boom") = .rejected msg ∧
          msg ∈ rejectionForms (.closed (some 1) "" "boom") :=
  ⟨by decide, C4_fatal_rejects (.closed (some 1) "" "boom") (by decide)⟩

/-- C6: determinism — the settlement of runPythonCore is a pure function
of the spawned process's exit code, stdout and stderr: two runs whose
processes produce equal observations settle identically (equal resolved
values or equal rejection messages). -/
theorem C6_deterministic (code1 code2 : Option Int)
    (stdout1 stdout2 stderr1 stderr2 : String)
    (hcode : code1 = code2) (hout : stdout1 = stdout2)
    (herr : stderr1 = stderr2) :
    runPythonCoreModel (.closed code1 stdout1 stderr1)
      = runPythonCoreModel (.closed code2 stdout2 stderr2) := by
  subst hcode
  subst hout
  subst herr
  rfl

/-- C6 witness: determinism applied at a concrete pair of equal process
observations. -/
theorem C6_deterministic_witness :
    runPythonCoreModel (.closed (some 0) "wrote 2 snippets" "")
      = runPythonCoreModel (.closed (some 0) "wrote 2 snippets" "") :=
  C6_deterministic (some 0) (some 0) "wrote 2 snippets" "wrote 2 snippets"
    "" "" rfl rfl rfl

theorem length_filter_add_length_filter_not {α : Type} (L : List α) (p : α → Bool) :
    (L.filter p).length + (L.filter (fun x => !(p x))).length = L.length := by
  induction L with
  | nil => rfl
  | cons x xs ih =>
    by_cases h : p x <;> simp [List.filter_cons, h] <;> omega

/-- C10 (amended): on a successful run the non-empty stdout lines are
partitioned — each visible line is classified as a warning exactly when
it is not classified as informational, the class sizes add up to the
number of visible lines, warning lines keep their relative stdout order
(they form a sublist of the visible lines) and yield exactly the
returned warnings, and no line classified as informational begins with
"Warning: ".  (The returned output string itself, however, can contain
such a line after the final trim; the claim's stronger form is refuted
separately.) -/
theorem C10_partition (stdout : String) (l : String)
    (hl : l ∈ visibleLines stdout) :
    (l ∈ warningSourceLines stdout ↔ l ∉ infoLines stdout) ∧
      (warningSourceLines stdout).length + (infoLines stdout).length
        = (visibleLines stdout).length ∧
      List.Sublist (warningSourceLines stdout) (visibleLines stdout) ∧
      (parseStdout stdout).warnings
        = (warningSourceLines stdout).map (fun x => strDrop x warningMark.length) ∧
      (l ∈ infoLines stdout → strStartsWith l warningMark = false) := by
  refine ⟨?_, ?_, ?_, rfl, ?_⟩
  · simp [warningSourceLines, infoLines, List.mem_filter, hl]
  · exact length_filter_add_length_filter_not (visibleLines stdout)
      (fun x => strStartsWith x warningMark)
  · exact List.filter_sublist _
  · intro hi
    have := (List.mem_filter.mp hi).2
    simpa using this

/-- C10 witness: the partition theorem applied at a concrete stdout with
one warning line and one informational line. -/
theorem C10_partition_witness :
    "wrote 1 snippets" ∈ visibleLines "Warning: a\nwrote 1 snippets" ∧
      (("wrote 1 snippets" ∈ warningSourceLines "Warning: a\nwrote 1 snippets"
          ↔ "wrote 1 snippets" ∉ infoLines "Warning: a\nwrote 1 snippets") ∧
        (warningSourceLines "Warning: a\nwrote 1 snippets").length
            + (infoLines "Warning: a\nwrote 1 snippets").length
          = (visibleLines "Warning: a\nwrote 1 snippets").length ∧
        List.Sublist (warningSourceLines "Warning: a\nwrote 1 snippets")
          (visibleLines "Warning: a\nwrote 1 snippets") ∧
        (parseStdout "Warning: a\nwrote 1 snippets").warnings
          = (warningSourceLines "Warning: a\nwrote 1 snippets").map
              (fun x => strDrop x warningMark.length) ∧
        ("wrote 1 snippets" ∈ infoLines "Warning: a\nwrote 1 snippets" →
          strStartsWith "wrote 1 snippets" warningMark = false)) :=
  ⟨by decide, C10_partition "Warning: a\nwrote 1 snippets" "wrote 1 snippets" (by decide)⟩

/-- C10 counterexample: the returned output string can contain a line
beginning with "Warning: ": on stdout "Warning: w\n Warning: x" the
second line is classified as informational (its leading space defeats
the prefix test), but the final trim strips that space, so the returned
output is the single line "Warning: x". -/
theorem C10_counterexample :
    (strLines (parseStdout "Warning: w\n Warning: x").output).any
        (fun l => strStartsWith l warningMark) = true := by decide

/-- Path join as used for building the built-in snippets directory
(posix separator form). -/
def pathJoin (a b : String) : String := a ++ "/" ++ b

/-- The command-line arguments the regenerate command builds for the
core (src/extension.ts): the regenerate subcommand, the workspace path,
the built-in snippets directory, and — only when the configured include
list is non-empty — "--include" followed by every configured name. -/
def regenerateArgs (workspacePath snippetsDir : String)
    (includeList : List String) : List String :=
  let args := ["regenerate", "--workspace", workspacePath,
    "--builtin-snippets", snippetsDir]
  if includeList.length > 0 then args ++ "--include" :: includeList else args

/-- The editor-facing actions the extension can take while handling the
regenerate command: showing a warning, information, or error message,
and invoking the core with an argument list. -/
inductive UiEvent where
  | warningMessage (text : String)
  | infoMessage (text : String)
  | errorMessage (text : String)
  | coreInvocation (args : List String)
deriving DecidableEq, Repr

/-- The warning shown when no workspace folder is open
(src/extension.ts). -/
def noWorkspaceMsg : String := "Prompt Weave: No workspace folder open."

/-- The regenerate command (src/extension.ts) as a function of the open
workspace folders (none when the workspaceFolders API yields undefined),
the configured include list (none when the setting is unset), the
extension path, and the settlement of the spawned core: with no
workspace folder a single warning is shown and nothing else happens;
otherwise the core is invoked and its output, warnings, or error are
surfaced as messages. -/
def regenerateModel (folders : Option (List String))
    (configInclude : Option (List String)) (extensionPath : String)
    (coreResult : RunResult) : List UiEvent :=
  match folders with
  | none => [.warningMessage noWorkspaceMsg]
  | some [] => [.warningMessage noWorkspaceMsg]
  | some (workspacePath :: _) =>
    let includeList := configInclude.getD []
    let args := regenerateArgs workspacePath (pathJoin extensionPath "snippets")
      includeList
    UiEvent.coreInvocation args ::
      match coreResult with
      | .resolved value =>
        UiEvent.infoMessage ("Prompt Weave: "
            ++ (if value.output = "" then "Instructions regenerated."
                else value.output))
          :: value.warnings.map
              (fun w => UiEvent.warningMessage ("Prompt Weave: " ++ w))
      | .rejected message => [UiEvent.errorMessage ("Prompt Weave: " ++ message)]

/-- The on-open gate of activate (src/extension.ts): the regenerate
routine is triggered at activation exactly when the regenerateOnOpen
setting is the boolean true and the configured include list is
non-empty. -/
def onOpenRegenerateTriggered (regenerateOnOpen : Option Bool)
    (configInclude : Option (List String)) : Bool :=
  if regenerateOnOpen = some true then
    decide ((configInclude.getD []).length > 0)
  else false

/-- activate (src/extension.ts) restricted to its on-open behaviour: the
events produced during activation beyond registering the command. -/
def activateModel (regenerateOnOpen : Option Bool)
    (folders : Option (List String)) (configInclude : Option (List String))
    (extensionPath : String) (coreResult : RunResult) : List UiEvent :=
  if onOpenRegenerateTriggered regenerateOnOpen configInclude then
    regenerateModel folders configInclude extensionPath coreResult
  else []

/-- C5: for every non-empty configured include list, the regenerate
command forwards the configured names to the core unmodified — the
argument list is exactly the fixed prefix, then "--include", then the
names in caller order with multiplicity preserved (no deduplication). -/
theorem C5_include_forwarded (workspacePath snippetsDir : String)
    (includeList : List String) (h : includeList ≠ []) :
    regenerateArgs workspacePath snippetsDir includeList
      = ["regenerate", "--workspace", workspacePath, "--builtin-snippets",
          snippetsDir, "--include"] ++ includeList := by
  cases includeList with
  | nil => exact absurd rfl h
  | cons a as => simp [regenerateArgs]

/-- C5 witness: the forwarding theorem applied to an include list that
contains the same name twice; both occurrences are forwarded. -/
theorem C5_include_forwarded_witness :
    (["base", "base"] : List String) ≠ [] ∧
      regenerateArgs "/ws" "/ext/snippets" ["base", "base"]
        = ["regenerate", "--workspace", "/ws", "--builtin-snippets",
            "/ext/snippets", "--include"] ++ ["base", "base"] :=
  ⟨by decide, C5_include_forwarded "/ws" "/ext/snippets" ["base", "base"] (by decide)⟩

/-- C8: when no workspace folder is open (the folder list is undefined
or empty), the regenerate command produces exactly one warning message
and never invokes the core, so no output file can be created or
mutated. -/
theorem C8_no_workspace (folders : Option (List String))
    (configInclude : Option (List String)) (extensionPath : String)
    (coreResult : RunResult) (h : folders = none ∨ folders = some []) :
    regenerateModel folders configInclude extensionPath coreResult
        = [.warningMessage noWorkspaceMsg]
      ∧ ∀ args, UiEvent.coreInvocation args
          ∉ regenerateModel folders configInclude extensionPath coreResult := by
  rcases h with h | h <;> subst h <;>
    exact ⟨rfl, by intro args hmem; simp [regenerateModel] at hmem⟩

/-- C8 witness: the no-workspace theorem applied with an undefined
folder list, a configured include list, and a core settlement that would
have produced output. -/
theorem C8_no_workspace_witness :
    ((none : Option (List String)) = none ∨ (none : Option (List String)) = some [])
      ∧ (regenerateModel none (some ["base"]) "/ext"
            (RunResult.resolved { output := "wrote 1 snippets", warnings := [] })
          = [.warningMessage noWorkspaceMsg]
        ∧ ∀ args, UiEvent.coreInvocation args
            ∉ regenerateModel none (some ["base"]) "/ext"
                (RunResult.resolved { output := "wrote 1 snippets", warnings := [] })) :=
  ⟨Or.inl rfl,
    C8_no_workspace none (some ["base"]) "/ext"
      (RunResult.resolved { output := "wrote 1 snippets", warnings := [] })
      (Or.inl rfl)⟩

/-- C9: on activation the regenerate routine is triggered automatically
if and only if the regenerateOnOpen setting is exactly the boolean true
and the configured include list is non-empty; whenever the gate is off —
in particular with regenerateOnOpen enabled but an empty include list —
activation produces no on-open events at all, so no automatic empty run
occurs. -/
theorem C9_on_open_gate (regenerateOnOpen : Option Bool)
    (configInclude : Option (List String)) (folders : Option (List String))
    (extensionPath : String) (coreResult : RunResult) :
    (onOpenRegenerateTriggered regenerateOnOpen configInclude = true
        ↔ (regenerateOnOpen = some true ∧ configInclude.getD [] ≠ []))
      ∧ (onOpenRegenerateTriggered regenerateOnOpen configInclude = false →
          activateModel regenerateOnOpen folders configInclude extensionPath
              coreResult = []) := by
  constructor
  · unfold onOpenRegenerateTriggered
    by_cases h : regenerateOnOpen = some true <;>
      simp [h, List.length_pos]
  · intro h
    unfold activateModel
    rw [h]
    simp

/-- C9 witness: the gate theorem applied with regenerateOnOpen set to
true but an empty include list; activation triggers nothing. -/
theorem C9_on_open_gate_witness :
    onOpenRegenerateTriggered (some true) (some []) = false ∧
      activateModel (some true) none (some []) "/ext"
          (RunResult.resolved { output := "", warnings := [] }) = [] :=
  ⟨by decide,
    (C9_on_open_gate (some true) (some []) none "/ext"
        (RunResult.resolved { output := "", warnings := [] })).2 (by decide)⟩

/-- Contents of the shipped built-in snippet file base.md. -/
def baseMd : String :=
  "---\nname: base\ndescription: General coding conventions and communication style\ntags: [general, style, code-quality]\nversion: 1\n---\n\n## General Conventions\n\n- Prefer simple, explicit code over clever one-liners.\n- Name variables, functions, and classes for what they *do*, not how they work.\n- Keep functions short; if a function needs a comment to explain what it does, consider splitting it.\n- Avoid abbreviations in names unless they are universally understood (e.g., `id`, `url`, `html`).\n- Delete dead code rather than commenting it out; version control preserves history.\n\n## Comments\n\n- Write comments that explain *why*, not *what* — the code explains what.\n- Use TODO comments sparingly and include a tracking reference when possible: `# TODO(#123): ...`.\n- Do not leave debugging `print` / `console.log` / `fmt.Println` statements in committed code.\n\n## Error Handling\n\n- Surface errors early; avoid swallowing them silently.\n- Prefer typed, descriptive errors over generic ones.\n- Never use exceptions for normal control flow.\n\n## Files and Commits\n\n- One logical change per commit.\n- Commit messages: imperative mood, ≤ 72 chars subject, blank line before body.\n- Keep files focused; one primary concept per file."

/-- Contents of the shipped built-in snippet file docker.md. -/
def dockerMd : String :=
  "---\nname: docker\ndescription: Docker and container development conventions\ntags: [docker, containers, devops]\nversion: 1\n---\n\n## Docker Conventions\n\n### Dockerfiles\n\n- Use official, versioned base images — never `latest` in production Dockerfiles.\n- Put the most-frequently-changing instructions last to maximise layer caching.\n- Combine `RUN` commands with `&&` and `\\` line continuations to reduce layers.\n- Use `COPY` instead of `ADD` unless you specifically need URL or tar-extraction support.\n- Drop to a non-root user before the final `CMD`/`ENTRYPOINT`.\n- Pin OS package versions when the exact version matters to reproducibility.\n\n### Images\n\n- Prefer multi-stage builds: compile/build in one stage, copy only the artifact into a\n  minimal runtime image in the next.\n- `.dockerignore` must list `node_modules/`, `.git/`, `__pycache__/`, and any secrets file.\n- Image tags in CI: use the full commit SHA, not a branch name.\n\n### Compose\n\n- Define explicit service names, not just the default.\n- Use named volumes for persistent data; never rely on anonymous volumes.\n- Pass secrets via environment variables sourced from `.env` (gitignored), not hard-coded.\n- Always specify `restart: unless-stopped` for long-running services.\n\n### General\n\n- Health checks should test the application's actual readiness, not just that the process started.\n- Log to stdout/stderr, not to files inside the container.\n"

/-- Contents of the shipped built-in snippet file git.md. -/
def gitMd : String :=
  "---\nname: git\ndescription: Git and commit workflow conventions\ntags: [git, commits, workflow]\nversion: 1\n---\n\n## Files and Commits\n\n- One logical change per commit.\n- Use Conventional Commits-style prefixes when writing commit subjects (e.g., `feat:`, `fix:`, `docs:`, `refactor:`, `chore:`, `test:`); prefer `docs:` for documentation commits (`doc:` is allowed for legacy consistency).\n- Commit messages: imperative mood, ≤ 72 chars subject, blank line before body.\n- Keep files focused; one primary concept per file."

/-- Modelled from the spec: the on-disk snippet front-matter format
(spec sections 4.1 and 6); the Python parser implementing it is absent
from the repository sources.  A file begins with a metadata block when
its first line consists solely of three hyphens; the block is everything
up to the next such line, which must exist. -/
def frontMatterBlock (text : String) : Option (List String) :=
  match strLines text with
  | [] => none
  | first :: rest =>
    if first == "---" && rest.any (fun l => l == "---") then
      some (rest.takeWhile (fun l => l != "---"))
    else none

/-- Modelled from the spec: the `name` metadata key required for
resolution and scanning — the value of the first line of the metadata
block starting with "name:", with surrounding whitespace trimmed. -/
def metadataName (text : String) : Option String :=
  match frontMatterBlock text with
  | none => none
  | some block =>
    match block.filter (fun l => strStartsWith l "name:") with
    | [] => none
    | l :: _ => some (jsTrim (strDrop l 5))

/-- A snippet data file conforms to the on-disk format when it opens
with a three-hyphen line, closes the metadata block with a second
three-hyphen line, and carries a `name` key inside the block. -/
def conformsToSnippetFormat (text : String) : Bool :=
  (frontMatterBlock text).isSome && (metadataName text).isSome

/-- C7: every built-in snippet data file shipped in the snippets
directory (base.md, docker.md, git.md) conforms to the on-disk snippet
format — a three-hyphen opening line, a `name` key inside the metadata
block, a closing three-hyphen line — and the `name` values of the
shipped files are pairwise distinct within the tier. -/
theorem C7_builtin_snippets_conform :
    conformsToSnippetFormat baseMd = true ∧
      conformsToSnippetFormat dockerMd = true ∧
      conformsToSnippetFormat gitMd = true ∧
      [baseMd, dockerMd, gitMd].map metadataName
          = [some "base", some "docker", some "git"] ∧
      ([baseMd, dockerMd, gitMd].map metadataName).Nodup := by decide

end PromptWeave
